import Mathlib

/-!
Shallow embedding of the MXL flow-descriptor model, translated from
src/lib/internal/src/FlowNMOS.cpp and src/lib/internal/include/mxl-internal/FlowNMOS.hpp
(namespace mxl::lib).  Machine integers are modelled as Nat or Int: every value
reachable through the rfl parse layer is small enough (frame dimensions are capped
at 8K UHD by rfl validators, rationals are int64 grain rates) that the C++
arithmetic never wraps, except where noted.  Fallible member functions, which
throw std::invalid_argument in the source, are modelled with Except String.
-/

namespace MxlLib

/-- Rational as held by mxl::lib::Rational: two int64_t fields. -/
structure Rational where
  numerator : Int
  denominator : Int
deriving DecidableEq

/-- Wire form Rational::Rfl: numerator required, denominator optional in the JSON. -/
structure RationalRfl where
  numerator : Int
  denominator : Option Int

/-- Translation of Rational::Rfl::to_class (FlowNMOS.cpp lines 46 to 65):
start from numerator over 1, override the denominator when the optional field is
present, then divide both by std::gcd when that gcd is nonzero.  C++ int64
division truncates toward zero, hence Int.tdiv; std::gcd of two int64 values is
the gcd of their absolute values, hence Int.gcd. -/
def RationalRfl.to_class (r : RationalRfl) : Rational :=
  let num : Int := r.numerator
  let den : Int :=
    match r.denominator with
    | some d => d
    | none => 1
  let g : Nat := Int.gcd num den
  if g ≠ 0 then
    { numerator := num.tdiv (g : Int), denominator := den.tdiv (g : Int) }
  else
    { numerator := num, denominator := den }

/-- NMOSCommonFlow::NMOSTags: the group-hint tag list. -/
structure NMOSTags where
  groupHints : List String

/-- NMOSCommonFlow: the fields shared by every flow kind.  The rfl layer
requires the fields to be present but places no constraint on the string
contents (label and description are plain std::string in the header). -/
structure NMOSCommonFlow where
  description : String
  id : String
  tags : NMOSTags
  label : String
  mediaType : String

def NMOSCommonFlow.getDescription (c : NMOSCommonFlow) : String :=
  c.description

def NMOSCommonFlow.getLabel (c : NMOSCommonFlow) : String :=
  c.label

def NMOSCommonFlow.getMediaType (c : NMOSCommonFlow) : String :=
  c.mediaType

def NMOSCommonFlow.getGroupHints (c : NMOSCommonFlow) : List String :=
  c.tags.groupHints

/-- Split of a character sequence at each colon, the semantics of
C++ ranges::views::split over the characters of the hint string: the empty
input yields one empty part, a trailing separator yields a trailing empty
part, adjacent separators yield empty parts in between. -/
def splitOnColon : List Char → List (List Char)
  | [] => [[]]
  | c :: rest =>
    match splitOnColon rest with
    | [] => [[c]]
    | p :: ps => if c = ':' then [] :: p :: ps else (c :: p) :: ps

/-- Check of one group hint, translated from the loop body of
NMOSCommonFlow::validateGroupHint (FlowNMOS.cpp lines 115 to 147).  The hint is
split on the colon into string view parts, then the part count, the emptiness
of group name and role, and the scope value are checked in source order. -/
def checkGroupHint (hint : String) : Except String Unit :=
  let vec := splitOnColon hint.toList
  if vec.length < 2 ∨ vec.length > 3 then
    Except.error "Invalid group hint value. Expected format group-name:role-in-group:group-scope"
  else
    let groupName := vec.getD 0 []
    let role := vec.getD 1 []
    if groupName = [] ∨ role = [] then
      Except.error "Invalid group hint value. Group name and role must not be empty."
    else if vec.length = 3 then
      let groupScope := vec.getD 2 []
      if groupScope ≠ "device".toList ∧ groupScope ≠ "node".toList then
        Except.error "Invalid group hint value. Group scope must be either device or node."
      else
        Except.ok ()
    else
      Except.ok ()

/-- Sequential check over the list, mirroring the for loop: the first malformed
hint throws, otherwise all pass. -/
def checkGroupHints : List String → Except String Unit
  | [] => Except.ok ()
  | hint :: rest =>
    match checkGroupHint hint with
    | Except.ok _ => checkGroupHints rest
    | Except.error e => Except.error e

/-- Translation of NMOSCommonFlow::validateGroupHint (FlowNMOS.cpp lines 101
to 150).  When the list is empty the source constructs a std::invalid_argument
on line 108 but never throws it, so the empty list passes validation. -/
def NMOSCommonFlow.validateGroupHint (c : NMOSCommonFlow) : Except String Unit :=
  let groupHints := c.tags.groupHints
  if groupHints.isEmpty then
    Except.ok ()
  else
    checkGroupHints groupHints

/-- NMOSCommonFlow::validate (FlowNMOS.cpp lines 92 to 95): only the group
hints are checked. -/
def NMOSCommonFlow.validate (c : NMOSCommonFlow) : Except String Unit :=
  c.validateGroupHint

/-- The interlace_mode field is an rfl::Literal restricted to exactly these
three strings, so it is modelled as a three-value enumeration. -/
inductive InterlaceMode where
  | interlaced_tff : InterlaceMode
  | interlaced_bff : InterlaceMode
  | progressive : InterlaceMode
deriving DecidableEq

/-- frame_width carries rfl::Validator Maximum 7680 (MAX_VIDEO_FRAME_WIDTH):
any parsed value satisfies the bound. -/
structure MaxFrameWidth where
  value : Nat
  isLe : value ≤ 7680

/-- frame_height carries rfl::Validator Maximum 4320 (MAX_VIDEO_FRAME_HEIGHT). -/
structure MaxFrameHeight where
  value : Nat
  isLe : value ≤ 4320

/-- NMOSVideoFlow fields, from the header. -/
structure NMOSVideoFlow where
  common : NMOSCommonFlow
  grainRate : Rational
  frameWidth : MaxFrameWidth
  frameHeight : MaxFrameHeight
  interlaceMode : InterlaceMode
  colorspace : String

def NMOSVideoFlow.getDescription (v : NMOSVideoFlow) : String :=
  v.common.getDescription

def NMOSVideoFlow.getLabel (v : NMOSVideoFlow) : String :=
  v.common.getLabel

def NMOSVideoFlow.getMediaType (v : NMOSVideoFlow) : String :=
  v.common.getMediaType

def NMOSVideoFlow.getFrameWidth (v : NMOSVideoFlow) : Nat :=
  v.frameWidth.value

/-- Translation of NMOSVideoFlow::getFrameHeight (FlowNMOS.cpp lines 195 to
198).  The source body reads frameWidth.get().value(), not frameHeight, so
this accessor returns the frame width. -/
def NMOSVideoFlow.getFrameHeight (v : NMOSVideoFlow) : Nat :=
  v.frameWidth.value

/-- NMOSVideoFlow::isInterlaced (FlowNMOS.cpp lines 205 to 208): the mode
string differs from progressive. -/
def NMOSVideoFlow.isInterlaced (v : NMOSVideoFlow) : Bool :=
  match v.interlaceMode with
  | .progressive => false
  | .interlaced_tff => true
  | .interlaced_bff => true

/-- Translation of NMOSVideoFlow::getPayloadSize (FlowNMOS.cpp lines 210 to
232).  With frame width at most 7680 the uint32 expression (w+47)/48*128 never
wraps (at most 20608) and the size_t product never wraps either, so plain Nat
arithmetic is exact. -/
def NMOSVideoFlow.getPayloadSize (v : NMOSVideoFlow) : Except String Nat :=
  if v.getMediaType = "video/v210" then
    let frameH := v.getFrameHeight
    let frameW := v.getFrameWidth
    if v.isInterlaced = false ∨ frameH % 2 = 0 then
      let h := if v.isInterlaced = true then frameH / 2 else frameH
      Except.ok ((frameW + 47) / 48 * 128 * h)
    else
      Except.error "Invalid video height for interlaced v210. Must be even."
  else
    Except.error "Unsupported video media_type"

/-- Translation of NMOSVideoFlow::getPayloadSliceLength (FlowNMOS.cpp lines
234 to 244): byte length of one line of v210 video. -/
def NMOSVideoFlow.getPayloadSliceLength (v : NMOSVideoFlow) : Except String Nat :=
  if v.getMediaType ≠ "video/v210" then
    Except.error "Unsupported video media_type"
  else
    Except.ok ((v.getFrameWidth + 47) / 48 * 128)

/-- Translation of NMOSVideoFlow::getTotalPayloadSlices (FlowNMOS.cpp lines
246 to 260). -/
def NMOSVideoFlow.getTotalPayloadSlices (v : NMOSVideoFlow) : Except String Nat :=
  if v.getMediaType ≠ "video/v210" then
    Except.error "Unsupported video media_type"
  else if v.isInterlaced = true then
    Except.ok (v.getFrameHeight / 2)
  else
    Except.ok v.getFrameHeight

/-- Translation of NMOSVideoFlow::validateGrainRate (FlowNMOS.cpp lines 268 to
279): an interlaced flow must carry grain rate 30000/1001 or 25/1 exactly. -/
def NMOSVideoFlow.validateGrainRate (v : NMOSVideoFlow) : Except String Unit :=
  if v.interlaceMode = InterlaceMode.interlaced_tff ∨ v.interlaceMode = InterlaceMode.interlaced_bff then
    if v.grainRate ≠ { numerator := 30000, denominator := 1001 } ∧
        v.grainRate ≠ { numerator := 25, denominator := 1 } then
      Except.error "Invalid grain_rate for interlaced video. Expected 30000/1001 or 25/1."
    else
      Except.ok ()
  else
    Except.ok ()

/-- NMOSVideoFlow::validate (FlowNMOS.cpp lines 262 to 266). -/
def NMOSVideoFlow.validate (v : NMOSVideoFlow) : Except String Unit :=
  match v.common.validate with
  | Except.ok _ => v.validateGrainRate
  | Except.error e => Except.error e

/-- NMOSAudioFlow fields, from the header. -/
structure NMOSAudioFlow where
  common : NMOSCommonFlow
  sampleRate : Rational
  channelCount : Nat
  bitDepth : Nat
  sourceId : String
  deviceId : String

def NMOSAudioFlow.getDescription (a : NMOSAudioFlow) : String :=
  a.common.getDescription

def NMOSAudioFlow.getLabel (a : NMOSAudioFlow) : String :=
  a.common.getLabel

def NMOSAudioFlow.getMediaType (a : NMOSAudioFlow) : String :=
  a.common.getMediaType

def NMOSAudioFlow.getBitDepth (a : NMOSAudioFlow) : Nat :=
  a.bitDepth

/-- Translation of NMOSAudioFlow::getPayloadSize (FlowNMOS.cpp lines 331 to
342).  The source compares the uint32 bit depth against the double literals
32.0 and 64.0; the uint32 to double conversion is exact, so the comparison is
plain equality on the integer value.  The returned value truncates the
division by 8. -/
def NMOSAudioFlow.getPayloadSize (a : NMOSAudioFlow) : Except String Nat :=
  if a.bitDepth ≠ 32 ∧ a.bitDepth ≠ 64 then
    Except.error "Unsupported bit depth"
  else
    Except.ok (a.bitDepth / 8)

/-- NMOSAudioFlow::validate (FlowNMOS.cpp lines 344 to 347). -/
def NMOSAudioFlow.validate (a : NMOSAudioFlow) : Except String Unit :=
  a.common.validate

/-- NMOSDataFlow fields, from the header: only the common part. -/
structure NMOSDataFlow where
  common : NMOSCommonFlow

def NMOSDataFlow.getDescription (d : NMOSDataFlow) : String :=
  d.common.getDescription

def NMOSDataFlow.getLabel (d : NMOSDataFlow) : String :=
  d.common.getLabel

def NMOSDataFlow.getMediaType (d : NMOSDataFlow) : String :=
  d.common.getMediaType

/-- NMOSDataFlow::validate (FlowNMOS.cpp lines 403 to 406). -/
def NMOSDataFlow.validate (d : NMOSDataFlow) : Except String Unit :=
  d.common.validate

/-- The tagged union NMOSFlow::Inner over the three flow kinds. -/
inductive NMOSFlowInner where
  | video : NMOSVideoFlow → NMOSFlowInner
  | audio : NMOSAudioFlow → NMOSFlowInner
  | data : NMOSDataFlow → NMOSFlowInner

/-- The NMOSFlow wrapper holding the tagged union. -/
structure NMOSFlow where
  inner : NMOSFlowInner

/-- NMOSFlow::validate (FlowNMOS.cpp lines 550 to 556): dispatch on the
variant. -/
def NMOSFlow.validate (f : NMOSFlow) : Except String Unit :=
  match f.inner with
  | .video v => v.validate
  | .audio a => a.validate
  | .data d => d.validate

/-- Models NMOSFlow::fromStr (FlowNMOS.cpp lines 408 to 422) after a
successful rfl JSON decode: the decoded Inner is wrapped and validated, and a
validation throw makes fromStr throw.  The JSON decoding itself only imposes
the structural field typing already captured by the Lean structures. -/
def NMOSFlow.fromParsed (inner : NMOSFlowInner) : Except String NMOSFlow :=
  let f : NMOSFlow := { inner := inner }
  match f.validate with
  | Except.ok _ => Except.ok f
  | Except.error e => Except.error e

/-- Translation of NMOSFlow::getLabel (FlowNMOS.cpp lines 468 to 478).  Each
visitor lambda in the source body calls getDescription on the variant, not
getLabel, so the wrapper returns the description string. -/
def NMOSFlow.getLabel (f : NMOSFlow) : String :=
  match f.inner with
  | .video v => v.getDescription
  | .audio a => a.getDescription
  | .data d => d.getDescription

/-- Translation of NMOSFlow::getMediaType (FlowNMOS.cpp lines 480 to 490).
Each visitor lambda in the source body calls getDescription on the variant,
not getMediaType, so the wrapper returns the description string. -/
def NMOSFlow.getMediaType (f : NMOSFlow) : String :=
  match f.inner with
  | .video v => v.getDescription
  | .audio a => a.getDescription
  | .data d => d.getDescription

/-- Modelled from the spec: the discrete flow engine (writer Commit and the
shared headIndex control field, spec sections 3 and 4.4) is not among the
sources under review, only its tests and callers are.  A Commit updates the
control field as headIndex = max(headIndex, committed grain index). -/
def commitHead (head : Nat) (index : Nat) : Nat :=
  max head index

/-- Modelled from the spec: the headIndex value after a sequence of writer
commits of the given grain indices, applied in writer program order. -/
def headAfter (head : Nat) : List Nat → Nat
  | [] => head
  | i :: rest => headAfter (commitHead head i) rest

/-- A well formed group hint tag in the sense enforced by the loop of
NMOSCommonFlow::validateGroupHint: two or three colon separated parts, a
nonempty group name and role, and a scope, when present, of device or node. -/
def WellFormedGroupHint (hint : String) : Prop :=
  ((splitOnColon hint.toList).length = 2 ∨ (splitOnColon hint.toList).length = 3) ∧
  (splitOnColon hint.toList).getD 0 [] ≠ [] ∧
  (splitOnColon hint.toList).getD 1 [] ≠ [] ∧
  ((splitOnColon hint.toList).length = 3 →
    (splitOnColon hint.toList).getD 2 [] = "device".toList ∨
      (splitOnColon hint.toList).getD 2 [] = "node".toList)

/-- Replace the label field of the common part of whichever variant is held.
Used to state that validation never inspects the label. -/
def NMOSFlowInner.setLabel : NMOSFlowInner → String → NMOSFlowInner
  | .video v, s => .video { v with common := { v.common with label := s } }
  | .audio a, s => .audio { a with common := { a.common with label := s } }
  | .data d, s => .data { d with common := { d.common with label := s } }

/-- Concrete common part of a 1080p v210 descriptor, as in the repository test
data: one valid group hint, nonempty label, media_type video/v210. -/
def commonV210 : NMOSCommonFlow :=
  { description := "demo flow"
    id := "5fbec3b1-1b0f-417d-9059-8b94a47197ed"
    tags := { groupHints := ["camera1:video"] }
    label := "main-video"
    mediaType := "video/v210" }

/-- Concrete progressive 1920 by 1080 v210 video flow at 60000/1001. -/
def v1080 : NMOSVideoFlow :=
  { common := commonV210
    grainRate := { numerator := 60000, denominator := 1001 }
    frameWidth := { value := 1920, isLe := by decide }
    frameHeight := { value := 1080, isLe := by decide }
    interlaceMode := InterlaceMode.progressive
    colorspace := "BT709" }

/-- Concrete progressive 1280 by 720 v210 video flow. -/
def v720 : NMOSVideoFlow :=
  { common := commonV210
    grainRate := { numerator := 50, denominator := 1 }
    frameWidth := { value := 1280, isLe := by decide }
    frameHeight := { value := 720, isLe := by decide }
    interlaceMode := InterlaceMode.progressive
    colorspace := "BT709" }

/-- Concrete descriptor whose label is present but empty, with otherwise valid
fields. -/
def vEmptyLabel : NMOSVideoFlow :=
  { common :=
      { description := "demo flow"
        id := "5fbec3b1-1b0f-417d-9059-8b94a47197ed"
        tags := { groupHints := ["camera1:video"] }
        label := ""
        mediaType := "video/v210" }
    grainRate := { numerator := 60000, denominator := 1001 }
    frameWidth := { value := 1920, isLe := by decide }
    frameHeight := { value := 1080, isLe := by decide }
    interlaceMode := InterlaceMode.progressive
    colorspace := "BT709" }

/-- Concrete interlaced flow carrying grain rate 60/1, which is not a
permitted interlaced rate. -/
def vInterlacedBadRate : NMOSVideoFlow :=
  { common := commonV210
    grainRate := { numerator := 60, denominator := 1 }
    frameWidth := { value := 1920, isLe := by decide }
    frameHeight := { value := 1080, isLe := by decide }
    interlaceMode := InterlaceMode.interlaced_tff
    colorspace := "BT709" }

/-- Concrete common part for audio fixtures. -/
def commonAudio : NMOSCommonFlow :=
  { description := "demo audio"
    id := "b3bb5be7-9fe9-4324-a5bb-4c70e1084449"
    tags := { groupHints := ["camera1:audio"] }
    label := "main-audio"
    mediaType := "audio/L32" }

/-- Concrete 32 bit audio flow. -/
def aud32 : NMOSAudioFlow :=
  { common := commonAudio
    sampleRate := { numerator := 48000, denominator := 1 }
    channelCount := 2
    bitDepth := 32
    sourceId := "2aa143ac-0ab7-4d75-bc32-5c00c13e186f"
    deviceId := "ea4a4fa4-9b51-45f8-9c1e-46cff9cb0c76" }

/-- Concrete audio flow with an unsupported 24 bit depth. -/
def aud24 : NMOSAudioFlow :=
  { common := commonAudio
    sampleRate := { numerator := 48000, denominator := 1 }
    channelCount := 2
    bitDepth := 24
    sourceId := "2aa143ac-0ab7-4d75-bc32-5c00c13e186f"
    deviceId := "ea4a4fa4-9b51-45f8-9c1e-46cff9cb0c76" }

/-- Concrete common part whose group hint list is present but empty. -/
def cEmptyHints : NMOSCommonFlow :=
  { description := "demo flow"
    id := "5fbec3b1-1b0f-417d-9059-8b94a47197ed"
    tags := { groupHints := [] }
    label := "main-video"
    mediaType := "video/v210" }

/-- Helper: headAfter distributes over list append. -/
theorem headAfter_append (h0 : Nat) (l1 l2 : List Nat) :
    headAfter h0 (l1 ++ l2) = headAfter (headAfter h0 l1) l2 := by
  induction l1 generalizing h0 with
  | nil => rfl
  | cons i rest ih => simpa [headAfter] using ih (commitHead h0 i)

/-- Helper: a sequence of commits never lowers the head index. -/
theorem le_headAfter (h0 : Nat) (l : List Nat) : h0 ≤ headAfter h0 l := by
  induction l generalizing h0 with
  | nil => exact Nat.le_refl h0
  | cons i rest ih =>
    exact Nat.le_trans (Nat.le_max_left h0 i) (ih (commitHead h0 i))

/-- C1: for the valid progressive v210 descriptor with frame_width 1920 and
frame_height 1080, getPayloadSliceLength is 5120 bytes as claimed, but
getPayloadSize is 5120 times 1920, not the claimed 5120 times 1080 =
5529600, because getFrameHeight (FlowNMOS.cpp line 197) returns the frame
width. -/
theorem v210_1080p_payload_size_uses_width :
    v1080.getFrameWidth = 1920 ∧
    v1080.frameHeight.value = 1080 ∧
    v1080.getPayloadSliceLength = Except.ok 5120 ∧
    v1080.getPayloadSize = Except.ok 9830400 ∧
    v1080.getPayloadSize ≠ Except.ok 5529600 ∧
    (5120 * 1080 : Nat) = 5529600 := by
  refine ⟨rfl, rfl, rfl, rfl, ?_, rfl⟩
  intro h
  have h9 : v1080.getPayloadSize = Except.ok 9830400 := rfl
  rw [h9] at h
  injection h with h2
  omega

/-- C2: for the parsed progressive v210 flow with frame_width 1280 and
frame_height 720, getTotalPayloadSlices returns 1280 (the frame width),
not the descriptor frame_height 720, because getFrameHeight
(FlowNMOS.cpp line 197) returns the frame width. -/
theorem v210_total_slices_uses_width :
    v720.interlaceMode = InterlaceMode.progressive ∧
    v720.frameHeight.value = 720 ∧
    v720.getTotalPayloadSlices = Except.ok 1280 ∧
    v720.getTotalPayloadSlices ≠ Except.ok 720 := by
  refine ⟨rfl, rfl, rfl, ?_⟩
  intro h
  have h1 : v720.getTotalPayloadSlices = Except.ok 1280 := rfl
  rw [h1] at h
  injection h with h2
  omega

/-- C3 counterexample: a descriptor whose label field is present but empty is
accepted by NMOSFlow::fromStr, refuting the claim that parsing fails for
every such descriptor. -/
theorem empty_label_descriptor_accepted :
    vEmptyLabel.common.label = "" ∧
    NMOSFlow.fromParsed (NMOSFlowInner.video vEmptyLabel)
      = Except.ok { inner := NMOSFlowInner.video vEmptyLabel } :=
  ⟨rfl, rfl⟩

/-- C3 amended: parsing never inspects the label: replacing the label of any
descriptor, in particular by the empty string, leaves the success or failure
of NMOSFlow::fromStr unchanged. -/
theorem fromStr_ignores_label (inner : NMOSFlowInner) (s : String) :
    (NMOSFlow.fromParsed (inner.setLabel s)).isOk = (NMOSFlow.fromParsed inner).isOk := by
  have h : NMOSFlow.validate { inner := inner.setLabel s }
      = NMOSFlow.validate { inner := inner } := by
    cases inner <;> rfl
  simp only [NMOSFlow.fromParsed, h]
  cases NMOSFlow.validate { inner := inner } <;> rfl

/-- C8: across any sequence of writer commits, applied in writer program
order with Commit updating headIndex to max(headIndex, index), the headIndex
observed after a longer prefix of commits is never smaller than the one
observed after a shorter prefix: headIndex is monotonically non-decreasing
and no observer sees it regress.  Modelled from the spec, since the discrete
flow engine is not among the sources under review. -/
theorem head_index_monotone (h0 : Nat) (l : List Nat) (i j : Nat) (hij : i ≤ j) :
    headAfter h0 (l.take i) ≤ headAfter h0 (l.take j) := by
  have hsplit : l.take j = l.take i ++ (l.drop i).take (j - i) := by
    rw [← List.take_add]
    congr 1
    omega
  rw [hsplit, headAfter_append]
  exact le_headAfter (headAfter h0 (l.take i)) ((l.drop i).take (j - i))

/-- C8 witness: concrete observation points over the commit sequence
5, 3, 7 from head 0. -/
theorem head_index_monotone_witness :
    headAfter 0 ([5, 3, 7].take 1) ≤ headAfter 0 ([5, 3, 7].take 3) :=
  head_index_monotone 0 [5, 3, 7] 1 3 (by decide)

/-- C9: the top level accessors disagree with the contained variant: for the
flow wrapping v1080, whose label is main-video and media type video/v210,
both NMOSFlow::getLabel and NMOSFlow::getMediaType return the description
string, because the visitor lambdas (FlowNMOS.cpp lines 472 and 484) call
getDescription on the variant. -/
theorem flow_label_media_type_returns_description :
    (NMOSFlow.mk (NMOSFlowInner.video v1080)).getLabel = "demo flow" ∧
    (NMOSFlow.mk (NMOSFlowInner.video v1080)).getMediaType = "demo flow" ∧
    v1080.common.label = "main-video" ∧
    v1080.common.mediaType = "video/v210" ∧
    ("demo flow" : String) ≠ "main-video" ∧
    ("demo flow" : String) ≠ "video/v210" :=
  ⟨rfl, rfl, rfl, rfl, by decide, by decide⟩

/-- C4: for numerator and denominator both positive, Rational::Rfl::to_class
exposes the gcd reduced form of the input: the result equals the input with
both components divided by their gcd, the result is in lowest terms and
represents the same rational value; a missing denominator defaults to 1; and
the grain rate 100000 over 2000 is exposed as 50 over 1. -/
theorem rational_to_class_normalizes (n d : Int) (hn : 0 < n) (hd : 0 < d) :
    RationalRfl.to_class ⟨n, some d⟩
        = { numerator := n / (Int.gcd n d : Int), denominator := d / (Int.gcd n d : Int) } ∧
    Int.gcd (RationalRfl.to_class ⟨n, some d⟩).numerator
        (RationalRfl.to_class ⟨n, some d⟩).denominator = 1 ∧
    (RationalRfl.to_class ⟨n, some d⟩).numerator * d
        = n * (RationalRfl.to_class ⟨n, some d⟩).denominator ∧
    RationalRfl.to_class ⟨n, none⟩ = { numerator := n, denominator := 1 } ∧
    RationalRfl.to_class ⟨100000, some 2000⟩ = { numerator := 50, denominator := 1 } := by
  have hgpos : 0 < Int.gcd n d := Int.gcd_pos_iff.mpr (Or.inl hn.ne')
  have hgne : Int.gcd n d ≠ 0 := hgpos.ne'
  have hgneI : ((Int.gcd n d : Nat) : Int) ≠ 0 := by exact_mod_cast hgne
  have hdl : ((Int.gcd n d : Nat) : Int) ∣ n := Int.gcd_dvd_left
  have hdr : ((Int.gcd n d : Nat) : Int) ∣ d := Int.gcd_dvd_right
  have e0 : RationalRfl.to_class ⟨n, some d⟩
      = if Int.gcd n d ≠ 0 then
          ({ numerator := n.tdiv (Int.gcd n d : Int),
             denominator := d.tdiv (Int.gcd n d : Int) } : Rational)
        else { numerator := n, denominator := d } := rfl
  have e1 : RationalRfl.to_class ⟨n, some d⟩
      = { numerator := n / (Int.gcd n d : Int), denominator := d / (Int.gcd n d : Int) } := by
    rw [e0, if_pos hgne, Int.tdiv_eq_ediv_of_dvd hdl, Int.tdiv_eq_ediv_of_dvd hdr]
  refine ⟨e1, ?_, ?_, ?_, by decide⟩
  · rw [e1]
    exact Int.gcd_div_gcd_div_gcd hgpos
  · rw [e1]
    rw [← Int.mul_ediv_assoc n hdr, mul_comm (n / (Int.gcd n d : Int)) d,
      ← Int.mul_ediv_assoc d hdl, mul_comm d n]
  · have e2 : RationalRfl.to_class ⟨n, none⟩
        = if Int.gcd n 1 ≠ 0 then
            ({ numerator := n.tdiv (Int.gcd n 1 : Int),
               denominator := (1 : Int).tdiv (Int.gcd n 1 : Int) } : Rational)
          else { numerator := n, denominator := 1 } := rfl
    have hg1 : Int.gcd n 1 = 1 := by simp [Int.gcd]
    rw [e2, hg1, if_pos (one_ne_zero : (1 : Nat) ≠ 0), Nat.cast_one,
      Int.tdiv_eq_ediv_of_dvd (one_dvd n), Int.ediv_one,
      Int.tdiv_eq_ediv_of_dvd (one_dvd 1), Int.ediv_one]

/-- C4 witness: the theorem applied to the tested grain rate 100000 over
2000. -/
theorem rational_to_class_normalizes_witness :
    (0 : Int) < 100000 ∧ (0 : Int) < 2000 ∧
    RationalRfl.to_class ⟨100000, some 2000⟩ = { numerator := 50, denominator := 1 } :=
  ⟨by decide, by decide,
    (rational_to_class_normalizes 100000 2000 (by decide) (by decide)).2.2.2.2⟩

/-- C5: for an otherwise valid video descriptor (the common validation
passes) whose interlace_mode is interlaced_tff or interlaced_bff,
NMOSFlow::fromStr throws exactly when the stored, normalized grain_rate is
neither 30000/1001 nor 25/1. -/
theorem interlaced_grain_rate_check (v : NMOSVideoFlow)
    (hmode : v.interlaceMode = InterlaceMode.interlaced_tff ∨
      v.interlaceMode = InterlaceMode.interlaced_bff)
    (hcommon : v.common.validate = Except.ok ()) :
    ((NMOSFlow.fromParsed (NMOSFlowInner.video v)).isOk = false
      ↔ (v.grainRate ≠ { numerator := 30000, denominator := 1001 } ∧
          v.grainRate ≠ { numerator := 25, denominator := 1 })) := by
  have hval : NMOSFlow.validate { inner := NMOSFlowInner.video v } = v.validateGrainRate := by
    simp only [NMOSFlow.validate, NMOSVideoFlow.validate, hcommon]
  by_cases hbad : v.grainRate ≠ { numerator := 30000, denominator := 1001 } ∧
      v.grainRate ≠ { numerator := 25, denominator := 1 }
  · have hgr : v.validateGrainRate
        = Except.error "Invalid grain_rate for interlaced video. Expected 30000/1001 or 25/1." := by
      unfold NMOSVideoFlow.validateGrainRate
      rw [if_pos hmode, if_pos hbad]
    simp only [NMOSFlow.fromParsed, hval, hgr]
    exact iff_of_true rfl hbad
  · have hgr : v.validateGrainRate = Except.ok () := by
      unfold NMOSVideoFlow.validateGrainRate
      rw [if_pos hmode, if_neg hbad]
    simp only [NMOSFlow.fromParsed, hval, hgr]
    exact iff_of_false (fun h => Bool.noConfusion h) hbad

/-- C5 witness: the theorem applied to the concrete interlaced flow carrying
grain rate 60/1, which is rejected. -/
theorem interlaced_grain_rate_check_witness :
    (vInterlacedBadRate.interlaceMode = InterlaceMode.interlaced_tff ∨
      vInterlacedBadRate.interlaceMode = InterlaceMode.interlaced_bff) ∧
    vInterlacedBadRate.common.validate = Except.ok () ∧
    (NMOSFlow.fromParsed (NMOSFlowInner.video vInterlacedBadRate)).isOk = false :=
  ⟨Or.inl rfl, rfl,
    (interlaced_grain_rate_check vInterlacedBadRate (Or.inl rfl) rfl).mpr (by decide)⟩

/-- C6: whenever getPayloadSize, getPayloadSliceLength and
getTotalPayloadSlices all return without throwing on a video flow, the
payload size equals the slice length times the number of slices. -/
theorem v210_payload_size_factorization (v : NMOSVideoFlow) (p s t : Nat)
    (hp : v.getPayloadSize = Except.ok p)
    (hs : v.getPayloadSliceLength = Except.ok s)
    (ht : v.getTotalPayloadSlices = Except.ok t) :
    p = s * t := by
  unfold NMOSVideoFlow.getPayloadSize at hp
  unfold NMOSVideoFlow.getPayloadSliceLength at hs
  unfold NMOSVideoFlow.getTotalPayloadSlices at ht
  by_cases hm : v.getMediaType = "video/v210"
  · rw [if_pos hm] at hp
    rw [if_neg (not_not_intro hm)] at hs
    rw [if_neg (not_not_intro hm)] at ht
    have hs' : (v.getFrameWidth + 47) / 48 * 128 = s := Except.ok.inj hs
    cases hI : v.isInterlaced with
    | false =>
      simp only [hI] at hp ht
      rw [if_pos (Or.inl trivial)] at hp
      rw [if_neg (by decide : ¬(false = true))] at hp
      rw [if_neg (by decide : ¬(false = true))] at ht
      have hp' := Except.ok.inj hp
      have ht' := Except.ok.inj ht
      rw [← hp', ← hs', ← ht']
    | true =>
      simp only [hI] at hp ht
      rw [if_pos trivial] at ht
      by_cases hpar : v.getFrameHeight % 2 = 0
      · rw [if_pos (Or.inr hpar)] at hp
        rw [if_pos trivial] at hp
        have hp' := Except.ok.inj hp
        have ht' := Except.ok.inj ht
        rw [← hp', ← hs', ← ht']
      · rw [if_neg (fun h => h.elim (fun h1 => Bool.noConfusion h1) hpar)] at hp
        cases hp
  · rw [if_neg hm] at hp
    cases hp

/-- C6 witness: the theorem applied to the concrete 1920 by 1080 progressive
flow. -/
theorem v210_payload_size_factorization_witness :
    v1080.getPayloadSize = Except.ok 9830400 ∧
    v1080.getPayloadSliceLength = Except.ok 5120 ∧
    v1080.getTotalPayloadSlices = Except.ok 1920 ∧
    (9830400 : Nat) = 5120 * 1920 :=
  ⟨rfl, rfl, rfl, v210_payload_size_factorization v1080 9830400 5120 1920 rfl rfl rfl⟩

/-- C7: NMOSAudioFlow::getPayloadSize returns bit_depth divided by 8 when the
bit depth is 32 or 64, and throws for every other bit depth. -/
theorem audio_payload_size_spec (a : NMOSAudioFlow) :
    (a.bitDepth = 32 ∨ a.bitDepth = 64 → a.getPayloadSize = Except.ok (a.bitDepth / 8)) ∧
    (a.bitDepth ≠ 32 → a.bitDepth ≠ 64 → (a.getPayloadSize).isOk = false) := by
  constructor
  · intro h
    rcases h with h | h <;> simp [NMOSAudioFlow.getPayloadSize, h]
  · intro h32 h64
    simp [NMOSAudioFlow.getPayloadSize, h32, h64, Except.isOk, Except.toBool]

/-- C7 witness: the theorem applied to a 32 bit flow (4 bytes per sample) and
to an unsupported 24 bit flow (error). -/
theorem audio_payload_size_spec_witness :
    aud32.getPayloadSize = Except.ok 4 ∧ (aud24.getPayloadSize).isOk = false :=
  ⟨(audio_payload_size_spec aud32).1 (Or.inl rfl),
    (audio_payload_size_spec aud24).2 (by decide) (by decide)⟩

/-- Helper: one group hint passes the source check exactly when it is well
formed. -/
theorem checkGroupHint_ok_iff (hint : String) :
    checkGroupHint hint = Except.ok () ↔ WellFormedGroupHint hint := by
  unfold checkGroupHint WellFormedGroupHint
  by_cases h1 : (splitOnColon hint.toList).length < 2 ∨ 3 < (splitOnColon hint.toList).length
  · rw [if_pos h1]
    constructor
    · intro h
      cases h
    · rintro ⟨hlen, -⟩
      exfalso
      omega
  · rw [if_neg h1]
    by_cases h2 : (splitOnColon hint.toList).getD 0 [] = [] ∨
        (splitOnColon hint.toList).getD 1 [] = []
    · rw [if_pos h2]
      constructor
      · intro h
        cases h
      · rintro ⟨-, hname, hrole, -⟩
        rcases h2 with h2 | h2
        · exact absurd h2 hname
        · exact absurd h2 hrole
    · rw [if_neg h2]
      push_neg at h1 h2
      by_cases h3 : (splitOnColon hint.toList).length = 3
      · rw [if_pos h3]
        by_cases h4 : (splitOnColon hint.toList).getD 2 [] ≠ "device".toList ∧
            (splitOnColon hint.toList).getD 2 [] ≠ "node".toList
        · rw [if_pos h4]
          constructor
          · intro h
            cases h
          · rintro ⟨-, -, -, hscope⟩
            rcases hscope h3 with h | h
            · exact absurd h h4.1
            · exact absurd h h4.2
        · rw [if_neg h4]
          push_neg at h4
          refine iff_of_true rfl ⟨Or.inr h3, h2.1, h2.2, fun _ => ?_⟩
          by_cases hdev : (splitOnColon hint.toList).getD 2 [] = "device".toList
          · exact Or.inl hdev
          · exact Or.inr (h4 hdev)
      · rw [if_neg h3]
        refine iff_of_true rfl ⟨Or.inl (by omega), h2.1, h2.2, fun h => absurd h h3⟩

/-- Helper: the loop over the hint list passes exactly when every hint is
well formed. -/
theorem checkGroupHints_ok_iff (l : List String) :
    checkGroupHints l = Except.ok () ↔ ∀ hint ∈ l, WellFormedGroupHint hint := by
  induction l with
  | nil => simp [checkGroupHints]
  | cons h t ih =>
    unfold checkGroupHints
    cases hc : checkGroupHint h with
    | ok u =>
      cases u
      have hw : WellFormedGroupHint h := (checkGroupHint_ok_iff h).mp hc
      simp [ih, hw]
    | error e =>
      have hw : ¬WellFormedGroupHint h := by
        intro hwf
        rw [(checkGroupHint_ok_iff h).mpr hwf] at hc
        cases hc
      constructor
      · intro habs
        cases habs
      · intro hall
        exact absurd (hall h (List.mem_cons_self h t)) hw

/-- C10: descriptor validation accepts a descriptor whose group-hint list is
present but empty, and in general passes exactly when every hint in the list
is well formed: two or three colon separated parts, nonempty group name and
role, and a scope of device or node when present. -/
theorem group_hint_validation (c : NMOSCommonFlow) :
    (c.tags.groupHints = [] → c.validate = Except.ok ()) ∧
    ((c.validate).isOk = true ↔ ∀ hint ∈ c.tags.groupHints, WellFormedGroupHint hint) := by
  constructor
  · intro h
    simp [NMOSCommonFlow.validate, NMOSCommonFlow.validateGroupHint, h]
  · unfold NMOSCommonFlow.validate NMOSCommonFlow.validateGroupHint
    by_cases he : c.tags.groupHints.isEmpty
    · have hnil : c.tags.groupHints = [] := List.isEmpty_iff.mp he
      simp [he, hnil, Except.isOk, Except.toBool]
    · rw [if_neg he]
      rw [show (∀ hint ∈ c.tags.groupHints, WellFormedGroupHint hint)
          ↔ checkGroupHints c.tags.groupHints = Except.ok () from
        (checkGroupHints_ok_iff c.tags.groupHints).symm]
      cases hx : checkGroupHints c.tags.groupHints with
      | ok u =>
        cases u
        simp [Except.isOk, Except.toBool]
      | error e =>
        simp [Except.isOk, Except.toBool]

/-- C10 witness: the theorem applied to the concrete descriptor with an empty
group-hint list; validation accepts it. -/
theorem group_hint_validation_witness :
    cEmptyHints.tags.groupHints = [] ∧ cEmptyHints.validate = Except.ok () :=
  ⟨rfl, (group_hint_validation cEmptyHints).1 rfl⟩

end MxlLib
